import Mathlib

/-!
Verification development for the google-maps-reviews-scraper repository.

The shallow embedding below models:
  * the relative-date utilities of src/dates.ts (parseRelativeDate, isDateBefore),
    over a timezone-free model of the JavaScript Date value (an instant is an
    integer count of seconds since the Unix epoch; the field getters/setters are
    the ECMAScript ones specialized to a DST-free clock);
  * the incremental harvest loop ScraperReviews of src/ScrapeReviewsUpdate.ts,
    with the browser collaborator abstracted as a stream of per-iteration
    outcomes (either an extracted batch or a thrown error);
  * the older Mode-A-only loop ScrapeReviews of src/index.ts (the one holding
    the 1000-item safety cap), and the two public entry points
    scrapeGoogleMapsReviews and scrapeNewGoogleMapsReviews of src/index.ts.
-/

/-- One extracted review record, mirroring the ReviewType object literal built
inside the page.evaluate extraction of src/index.ts and
src/ScrapeReviewsUpdate.ts. -/
structure Review where
  id : String
  reviewName : String
  starRating : String
  responseFromOwner : Bool
  reviewText : String
  reviewPostedAt : String
  isHighRating : Bool
  starLabel : String
  shareUrl : String
  deriving DecidableEq, Repr

/-- The data one scroll iteration of the collaborator returns: the object
returned by the page.evaluate call (reviews, totalElements,
newElementsProcessed). -/
structure Batch where
  reviews : List Review
  totalElements : Nat
  newElementsProcessed : Nat
  deriving DecidableEq, Repr

/-- The loop-local mutable variables of ScraperReviews: isScrolling,
scrapedReviews (a JS Map, modelled as an insertion-ordered association list),
processedElementsCount and noNewElementsCount.  The loggedError field models
the console.error diagnostic emitted by the catch block of the scroll loop. -/
structure HarvestState where
  isScrolling : Bool
  results : List (String × Review)
  processedElementsCount : Nat
  noNewElementsCount : Nat
  loggedError : Option String
  deriving DecidableEq, Repr

/-- JS Map.has on the association-list model. -/
def mapHas (m : List (String × Review)) (k : String) : Bool :=
  m.any (fun p => p.1 == k)

/-- JS Map.set on the association-list model: replaces in place when the key is
present (keeping insertion order), appends otherwise. -/
def mapSet (m : List (String × Review)) (k : String) (v : Review) :
    List (String × Review) :=
  if mapHas m k then m.map (fun p => if p.1 == k then (k, v) else p)
  else m ++ [(k, v)]

/-- The guarded insertion both loops perform per record:
if (!scrapedReviews.has(review.id)) scrapedReviews.set(review.id, review). -/
def insertIfAbsent (m : List (String × Review)) (r : Review) :
    List (String × Review) :=
  if mapHas m r.id then m else m ++ [(r.id, r)]

/-- Folding the guarded insertion over a record list from the empty map: the
identity-deduplicated accumulation of a record stream. -/
def dedupById (l : List Review) : List (String × Review) :=
  l.foldl insertIfAbsent []

/-! ### Model of the JavaScript Date value (src/dates.ts helpers)

A JS Date is a time value; here an instant is seconds since the Unix epoch
(Int), read in a fixed DST-free clock.  The civil (proleptic Gregorian)
conversions implement the ECMAScript calendar. -/

/-- Days-since-epoch of the first day of month m (1..12) of year y,
proleptic Gregorian. -/
def daysFromCivil (y m : Int) : Int :=
  let y2 := if m ≤ 2 then y - 1 else y
  let era := y2.fdiv 400
  let yoe := y2 - era * 400
  let mp := (m + 9) % 12
  let doy := (153 * mp + 2).fdiv 5
  let doe := yoe * 365 + yoe.fdiv 4 - yoe.fdiv 100 + doy
  era * 146097 + doe - 719468

/-- Civil (year, month 1..12, day 1..31) of a days-since-epoch count. -/
def civilFromDays (z : Int) : Int × Int × Int :=
  let z2 := z + 719468
  let era := z2.fdiv 146097
  let doe := z2 - era * 146097
  let yoe := (doe - doe.fdiv 1460 + doe.fdiv 36524 - doe.fdiv 146096).fdiv 365
  let y := yoe + era * 400
  let doy := doe - (365 * yoe + yoe.fdiv 4 - yoe.fdiv 100)
  let mp := (5 * doy + 2).fdiv 153
  let d := doy - (153 * mp + 2).fdiv 5 + 1
  let m := if mp < 10 then mp + 3 else mp - 9
  (if m ≤ 2 then y + 1 else y, m, d)

/-- Date.prototype.getSeconds. -/
def getSeconds (d : Int) : Int := d % 60

/-- Date.prototype.setSeconds: replaces the seconds field, normalizing
overflow/underflow through the time value. -/
def setSeconds (d x : Int) : Int := d - getSeconds d + x

/-- Date.prototype.getMinutes. -/
def getMinutes (d : Int) : Int := (d.fdiv 60) % 60

/-- Date.prototype.setMinutes (seconds field kept). -/
def setMinutes (d x : Int) : Int := d - getMinutes d * 60 + x * 60

/-- Date.prototype.getHours. -/
def getHours (d : Int) : Int := (d.fdiv 3600) % 24

/-- Date.prototype.setHours (minutes and seconds kept). -/
def setHours (d x : Int) : Int := d - getHours d * 3600 + x * 3600

/-- Days-since-epoch component of an instant. -/
def epochDay (d : Int) : Int := d.fdiv 86400

/-- Seconds-of-day component of an instant. -/
def secsOfDay (d : Int) : Int := d % 86400

/-- Date.prototype.getDate (day of month, 1..31). -/
def getDate (d : Int) : Int := (civilFromDays (epochDay d)).2.2

/-- Date.prototype.setDate: replaces the day-of-month field; out-of-range
values normalize by day counting. -/
def setDate (d x : Int) : Int := d + (x - getDate d) * 86400

/-- Date.prototype.getMonth (0..11, as in ECMAScript). -/
def getMonth (d : Int) : Int := (civilFromDays (epochDay d)).2.1 - 1

/-- Date.prototype.getFullYear. -/
def getFullYear (d : Int) : Int := (civilFromDays (epochDay d)).1

/-- ECMAScript MakeDay: year y, month m (any integer, 0-based; overflow is
carried into the year) and day-of-month dom (any integer; overflow counts
days), as days since epoch. -/
def makeDay (y m dom : Int) : Int :=
  let ym := y + m.fdiv 12
  let mn := m % 12
  daysFromCivil ym (mn + 1) + (dom - 1)

/-- Date.prototype.setMonth: shifts the calendar month field, keeping year,
day-of-month and time of day (with normalization). -/
def setMonth (d x : Int) : Int :=
  makeDay (getFullYear d) x (getDate d) * 86400 + secsOfDay d

/-- Date.prototype.setFullYear: shifts the calendar year field, keeping month,
day-of-month and time of day (with normalization). -/
def setFullYear (d x : Int) : Int :=
  makeDay x (getMonth d) (getDate d) * 86400 + secsOfDay d

/-! ### parseRelativeDate (src/dates.ts) -/

/-- The seven time units recognized by the regex of parseRelativeDate. -/
inductive TimeUnit where
  | second
  | minute
  | hour
  | day
  | week
  | month
  | year
  deriving DecidableEq, Repr

/-- Splits a character list into its maximal whitespace-free runs, dropping
the whitespace.  Together with the anchoring of the source regex on the
trimmed string, this models the two mandatory whitespace separators of
the pattern (the backslash-s-plus pieces): a trimmed string matches the
regex exactly when this tokenization yields the three component tokens. -/
def splitWsAux : List Char → List Char → List (List Char)
  | [], acc => if acc = [] then [] else [acc.reverse]
  | c :: cs, acc =>
    if c.isWhitespace then
      if acc = [] then splitWsAux cs []
      else acc.reverse :: splitWsAux cs []
    else splitWsAux cs (c :: acc)

/-- Whitespace tokenization of a character list. -/
def splitWs (cs : List Char) : List (List Char) := splitWsAux cs []

/-- Decimal value of an all-digit character list, as computed by
parseInt(s, 10) on such input. -/
def digitsToNat (cs : List Char) : Nat :=
  cs.foldl (fun n c => n * 10 + (c.toNat - 48)) 0

/-- The amount component of the regex alternation (a|an|digits), together
with the conversion the source applies: the articles denote 1, a digit run
goes through parseInt. -/
def parseAmount (t : List Char) : Option Nat :=
  if t = "a".data ∨ t = "an".data then some 1
  else if t ≠ [] ∧ t.all Char.isDigit then some (digitsToNat t)
  else none

/-- The unit component of the regex: one of the seven unit names, with an
optional trailing plural s. -/
def unitOfToken (t : List Char) : Option TimeUnit :=
  if t = "second".data ∨ t = "seconds".data then some TimeUnit.second
  else if t = "minute".data ∨ t = "minutes".data then some TimeUnit.minute
  else if t = "hour".data ∨ t = "hours".data then some TimeUnit.hour
  else if t = "day".data ∨ t = "days".data then some TimeUnit.day
  else if t = "week".data ∨ t = "weeks".data then some TimeUnit.week
  else if t = "month".data ∨ t = "months".data then some TimeUnit.month
  else if t = "year".data ∨ t = "years".data then some TimeUnit.year
  else none

/-- The switch statement of parseRelativeDate: result is a copy of now with
one calendar field shifted down by the amount (weeks shift the day field by
seven per week). -/
def applySub (now : Int) (amount : Nat) : TimeUnit → Int
  | TimeUnit.second => setSeconds now (getSeconds now - (amount : Int))
  | TimeUnit.minute => setMinutes now (getMinutes now - (amount : Int))
  | TimeUnit.hour => setHours now (getHours now - (amount : Int))
  | TimeUnit.day => setDate now (getDate now - (amount : Int))
  | TimeUnit.week => setDate now (getDate now - (amount : Int) * 7)
  | TimeUnit.month => setMonth now (getMonth now - (amount : Int))
  | TimeUnit.year => setFullYear now (getFullYear now - (amount : Int))

/-- parseRelativeDate of src/dates.ts: lower-cases and trims the input,
matches the anchored pattern (a|an|digits) ws unit optional-s ws ago, and on
a match subtracts amount units from now; null (none) otherwise.  Trimming is
subsumed by the whitespace tokenization, which ignores leading and trailing
whitespace. -/
def parseRelativeDate (now : Int) (relativeDateString : String) : Option Int :=
  match splitWs (relativeDateString.data.map Char.toLower) with
  | [amountTok, unitTok, agoTok] =>
    if agoTok = "ago".data then
      match parseAmount amountTok, unitOfToken unitTok with
      | some amount, some unit => some (applySub now amount unit)
      | _, _ => none
    else none
  | _ => none

/-- isDateBefore of src/dates.ts at its only call site, where both arguments
are parseRelativeDate results (a Date or null, never a string): null on a
null input, otherwise whether the first instant is at-or-after the second.
The string-coercion and isNaN branches of the source are unreachable for
Date-valued input in this clock model. -/
def isDateBefore (newDate lastScrapedDate : Option Int) : Option Bool :=
  match newDate, lastScrapedDate with
  | none, _ => none
  | _, none => none
  | some d1, some d2 => some (decide (d1 ≥ d2))

/-! ### The spec-side grammar (for the exactness part of the parse claim)

Modelled from the spec: the recognized grammar
(integer | a | an) unit optional-s ago with unit among second, minute, hour,
day, week, month, year. -/

/-- Modelled from the spec: the seven unit names of the recognized grammar. -/
def unitTokens : List (List Char) :=
  ["second".data, "minute".data, "hour".data, "day".data, "week".data,
   "month".data, "year".data]

/-- Modelled from the spec: an amount token is the article a, the article an,
or a nonempty digit run. -/
def amountTokOk (t : List Char) : Bool :=
  decide ((t = "a".data ∨ t = "an".data) ∨ (t ≠ [] ∧ t.all Char.isDigit = true))

/-- Modelled from the spec: a unit token is one of the seven unit names with
an optional trailing plural s. -/
def unitTokOk (t : List Char) : Bool :=
  unitTokens.any (fun u => t == u || t == u ++ ['s'])

/-- Modelled from the spec: the full grammar on the lower-cased, trimmed
input, three whitespace-separated tokens amount unit ago. -/
def matchesGrammarSpec (s : String) : Bool :=
  match splitWs (s.data.map Char.toLower) with
  | [amountTok, unitTok, agoTok] =>
    amountTokOk amountTok && unitTokOk unitTok && agoTok == "ago".data
  | _ => false

/-! ### The harvest loop ScraperReviews (src/ScrapeReviewsUpdate.ts) -/

/-- The for-loop over one batch of extracted records in ScraperReviews.
The lastScrapedDate parameter selects the mode per the source's two guards:
a truthy value (some nonempty string) runs the cutoff logic, undefined (none)
runs the saturation logic, and a falsy non-undefined value (some empty
string) runs neither, skipping every record.  In cutoff mode a comparison
other than true sets isScrolling to false and processing continues with the
rest of the batch; in saturation mode a high-rating record sets isScrolling
to false and breaks out of the batch. -/
def processBatchReviews (lastScrapedDate : Option String) (now : Int) :
    HarvestState → List Review → HarvestState
  | st, [] => st
  | st, review :: rest =>
    match lastScrapedDate with
    | some cutoff =>
      if cutoff = "" then processBatchReviews lastScrapedDate now st rest
      else
        let isStopedAt := isDateBefore (parseRelativeDate now review.reviewPostedAt)
          (parseRelativeDate now cutoff)
        if isStopedAt = some true then
          if review.isHighRating then processBatchReviews lastScrapedDate now st rest
          else if mapHas st.results review.id then
            processBatchReviews lastScrapedDate now st rest
          else
            processBatchReviews lastScrapedDate now
              { st with results := mapSet st.results review.id review } rest
        else
          processBatchReviews lastScrapedDate now
            { st with isScrolling := false } rest
    | none =>
      if review.isHighRating then { st with isScrolling := false }
      else if mapHas st.results review.id then
        processBatchReviews lastScrapedDate now st rest
      else
        processBatchReviews lastScrapedDate now
          { st with results := mapSet st.results review.id review } rest

/-- One successful scroll iteration of ScraperReviews: record the new total
as the processed cursor, run the batch for-loop, then the stall check (three
consecutive iterations with an empty unprocessed suffix stop the loop).
ScraperReviews has no size-cap check. -/
def processIteration (lastScrapedDate : Option String) (now : Int)
    (st : HarvestState) (b : Batch) : HarvestState :=
  let st1 := { st with processedElementsCount := b.totalElements }
  let st2 := processBatchReviews lastScrapedDate now st1 b.reviews
  if b.newElementsProcessed == 0 then
    let n := st2.noNewElementsCount + 1
    if 3 ≤ n then { st2 with noNewElementsCount := n, isScrolling := false }
    else { st2 with noNewElementsCount := n }
  else { st2 with noNewElementsCount := 0 }

/-- One pass of the while loop: when still scrolling, consume the next
collaborator outcome; a thrown error is caught, logged via console.error
(recorded in loggedError) and stops the loop.  When the loop has stopped,
remaining outcomes are never consumed. -/
def scraperStep (lastScrapedDate : Option String) (now : Int)
    (st : HarvestState) (it : Except String Batch) : HarvestState :=
  if st.isScrolling then
    match it with
    | Except.ok b => processIteration lastScrapedDate now st b
    | Except.error e => { st with isScrolling := false, loggedError := some e }
  else st

/-- The state at entry of the while loop of ScraperReviews. -/
def initialHarvestState : HarvestState :=
  { isScrolling := true
    results := []
    processedElementsCount := 0
    noNewElementsCount := 0
    loggedError := none }

/-- The full while loop of ScraperReviews driven by a stream of collaborator
outcomes. -/
def runScraperReviews (lastScrapedDate : Option String) (now : Int)
    (stream : List (Except String Batch)) : HarvestState :=
  stream.foldl (scraperStep lastScrapedDate now) initialHarvestState

/-- ScraperReviews return value: the Map values in insertion order.  The
unassigned finalReviews.filter call at the end of the source is a no-op (its
result is discarded), so the returned array is exactly the Map values. -/
def ScraperReviews (lastScrapedDate : Option String) (now : Int)
    (stream : List (Except String Batch)) : List Review :=
  ((runScraperReviews lastScrapedDate now stream).results).map Prod.snd

/-! ### The older loop ScrapeReviews (src/index.ts) -/

/-- The batch for-loop of ScrapeReviews in src/index.ts: here a new record is
inserted first and only then, if it is high-rating, the loop stops. -/
def processBatchScrapeReviews : HarvestState → List Review → HarvestState
  | st, [] => st
  | st, review :: rest =>
    if mapHas st.results review.id then processBatchScrapeReviews st rest
    else
      let st2 := { st with results := mapSet st.results review.id review }
      if review.isHighRating then { st2 with isScrolling := false }
      else processBatchScrapeReviews st2 rest

/-- One successful scroll iteration of ScrapeReviews in src/index.ts: batch
loop, stall check (whose break skips the cap check), then the safety cap
(more than 1000 unique results stops the loop). -/
def processIterationScrapeReviews (st : HarvestState) (b : Batch) :
    HarvestState :=
  let st1 := { st with processedElementsCount := b.totalElements }
  let st2 := processBatchScrapeReviews st1 b.reviews
  if b.newElementsProcessed == 0 then
    let n := st2.noNewElementsCount + 1
    if 3 ≤ n then { st2 with noNewElementsCount := n, isScrolling := false }
    else
      let st3 := { st2 with noNewElementsCount := n }
      if 1000 < st3.results.length then { st3 with isScrolling := false }
      else st3
  else
    let st3 := { st2 with noNewElementsCount := 0 }
    if 1000 < st3.results.length then { st3 with isScrolling := false }
    else st3

/-! ### The public entry points (src/index.ts) -/

/-- JS truthiness of the value a filter callback returns, for a callback
whose body is a block: a block body with no return statement produces
undefined (none), which is falsy. -/
def jsTruthy : Option Bool → Bool
  | none => false
  | some b => b

/-- The callback of the final filter in scrapeGoogleMapsReviews: a block body
that evaluates the comparison as an expression statement and returns nothing,
hence undefined. -/
def finalFilterCallback (item : Review) : Option Bool :=
  let _ := item.isHighRating == false
  none

/-- scrapeGoogleMapsReviews on its success path: harvest via ScraperReviews
with no date argument (Mode A), then filter with the returnless callback. -/
def scrapeGoogleMapsReviews (now : Int)
    (stream : List (Except String Batch)) : List Review :=
  let finalReviews := ScraperReviews none now stream
  finalReviews.filter (fun item => jsTruthy (finalFilterCallback item))

/-- Observable outcome of one scrapeNewGoogleMapsReviews invocation:
whether the harvest loop was entered, the reviews the source computes and
logs, the console.error diagnostic, and the promise's resolution value. -/
structure NewScrapeOutcome where
  enteredHarvestLoop : Bool
  harvestLogged : List Review
  errorLogged : Option String
  resolvedValue : Option (List Review)
  deriving DecidableEq, Repr

/-- scrapeNewGoogleMapsReviews of src/index.ts: an empty date throws before
the harvest (caught by the function's own catch, which logs the message);
any other date reaches ScraperReviews with the date as cutoff.  The function
body has no return statement on either path, so the promise resolves to
undefined (none). -/
def scrapeNewGoogleMapsReviews (now : Int) (date : String)
    (stream : List (Except String Batch)) : NewScrapeOutcome :=
  if date = "" then
    { enteredHarvestLoop := false
      harvestLogged := []
      errorLogged := some "Date parameter is required"
      resolvedValue := none }
  else
    { enteredHarvestLoop := true
      harvestLogged := ScraperReviews (some date) now stream
      errorLogged := none
      resolvedValue := none }

/-! ### Concrete data used by witnesses and counterexamples -/

/-- A review record with the given identity, posted-time text and rating
flag; the remaining fields are fixed fillers. -/
def mkReview (idStr postedAt : String) (high : Bool) : Review :=
  { id := idStr
    reviewName := "n"
    starRating := if high then "5" else "1"
    responseFromOwner := false
    reviewText := "t"
    reviewPostedAt := postedAt
    isHighRating := high
    starLabel := if high then "5 stars" else "1 star"
    shareUrl := "" }

/-- A low-rating review whose identity is a run of i letters (identities are
pairwise distinct across i). -/
def lowReview (i : Nat) : Review :=
  mkReview (String.mk (List.replicate i 'a')) "Unknown date" false

/-- A single batch holding 1002 distinct low-rating reviews. -/
def bigBatch : Batch :=
  { reviews := (List.range 1002).map lowReview
    totalElements := 1002
    newElementsProcessed := 1002 }

/-! ### Arithmetic facts about the calendar subtraction -/

/-- Subtracting seconds via the seconds field is plain subtraction. -/
theorem applySub_second (now : Int) (a : Nat) :
    applySub now a TimeUnit.second = now - (a : Int) := by
  unfold applySub setSeconds
  ring

/-- Subtracting minutes via the minutes field is subtraction of a times 60. -/
theorem applySub_minute (now : Int) (a : Nat) :
    applySub now a TimeUnit.minute = now - (a : Int) * 60 := by
  unfold applySub setMinutes
  ring

/-- Subtracting hours via the hours field is subtraction of a times 3600. -/
theorem applySub_hour (now : Int) (a : Nat) :
    applySub now a TimeUnit.hour = now - (a : Int) * 3600 := by
  unfold applySub setHours
  ring

/-- Subtracting days via the day-of-month field is subtraction of a times
86400. -/
theorem applySub_day (now : Int) (a : Nat) :
    applySub now a TimeUnit.day = now - (a : Int) * 86400 := by
  unfold applySub setDate
  ring

/-- Subtracting weeks via the day-of-month field is subtraction of a times
604800: a week is seven days. -/
theorem applySub_week (now : Int) (a : Nat) :
    applySub now a TimeUnit.week = now - (a : Int) * 604800 := by
  unfold applySub setDate
  ring

/-- A low-rating demo review posted one day ago. -/
def demoLow : Review := mkReview "demo" "1 day ago" false

/-- A one-record batch holding the demo review. -/
def demoBatch : Batch :=
  { reviews := [demoLow], totalElements := 1, newElementsProcessed := 1 }

/-- A batch with no extracted records but a nonempty unprocessed suffix. -/
def emptyOkBatch : Batch :=
  { reviews := [], totalElements := 1, newElementsProcessed := 1 }

/-- A record whose posted-time text does not parse. -/
def cexNullReview : Review := mkReview "r-unknown" "Unknown date" false

/-- A one-record batch holding the unparseable-date record. -/
def cexNullBatch : Batch :=
  { reviews := [cexNullReview], totalElements := 1, newElementsProcessed := 1 }

/-- First record of the cutoff-termination stream: posted one day ago. -/
def c5r1 : Review := mkReview "d1a" "1 day ago" false

/-- Second record of the cutoff-termination stream: posted one day ago. -/
def c5r2 : Review := mkReview "d1b" "1 day ago" false

/-- Third record of the cutoff-termination stream: posted three days ago. -/
def c5r3 : Review := mkReview "d3" "3 days ago" false

/-- Fourth record of the cutoff-termination stream: posted five days ago. -/
def c5r5 : Review := mkReview "d5" "5 days ago" false

/-- The spec's cutoff-termination record stream as one batch. -/
def c5Batch4 : Batch :=
  { reviews := [c5r1, c5r2, c5r3, c5r5], totalElements := 4, newElementsProcessed := 4 }

/-- A batch whose first record is older than the cutoff and whose second is
newer than the cutoff. -/
def c5BatchSwap : Batch :=
  { reviews := [c5r3, c5r1], totalElements := 2, newElementsProcessed := 2 }

/-- A loop state already holding 1001 entries (key multiplicity does not
matter here: the batch processed next is empty). -/
def capState : HarvestState :=
  { isScrolling := true
    results := List.replicate 1001 ("k", demoLow)
    processedElementsCount := 0
    noNewElementsCount := 0
    loggedError := none }

/-- Mode-A saturation demo: low-rating record of the first batch. -/
def w4low1 : Review := mkReview "w1" "Unknown date" false

/-- Mode-A saturation demo: low-rating record before the trigger. -/
def w4low2 : Review := mkReview "w2" "Unknown date" false

/-- Mode-A saturation demo: record after the trigger, never processed. -/
def w4low3 : Review := mkReview "w3" "Unknown date" false

/-- Mode-A saturation demo: the high-rating trigger record. -/
def w4high : Review := mkReview "wh" "Unknown date" true

/-- Mode-A saturation demo: the first batch. -/
def w4b1 : Batch :=
  { reviews := [w4low1], totalElements := 1, newElementsProcessed := 1 }

/-- Mode-A saturation demo: the batch holding the trigger. -/
def w4bj : Batch :=
  { reviews := [w4low2, w4high, w4low3], totalElements := 4, newElementsProcessed := 3 }
/-! ### The parser accepts exactly the grammar -/

/-- parseAmount succeeds exactly on the amount tokens of the grammar. -/
theorem parseAmount_isSome (t : List Char) :
    (parseAmount t).isSome = amountTokOk t := by
  unfold parseAmount amountTokOk
  split_ifs with h1 h2
  · simp only [Option.isSome_some]
    symm
    rw [decide_eq_true_eq]
    exact Or.inl h1
  · simp only [Option.isSome_some]
    symm
    rw [decide_eq_true_eq]
    exact Or.inr h2
  · simp only [Option.isSome_none]
    symm
    rw [decide_eq_false_iff_not]
    tauto

/-- unitOfToken succeeds exactly on the unit tokens of the grammar. -/
theorem unitOfToken_isSome (t : List Char) :
    (unitOfToken t).isSome = unitTokOk t := by
  have e1 : "second".data ++ ['s'] = "seconds".data := rfl
  have e2 : "minute".data ++ ['s'] = "minutes".data := rfl
  have e3 : "hour".data ++ ['s'] = "hours".data := rfl
  have e4 : "day".data ++ ['s'] = "days".data := rfl
  have e5 : "week".data ++ ['s'] = "weeks".data := rfl
  have e6 : "month".data ++ ['s'] = "months".data := rfl
  have e7 : "year".data ++ ['s'] = "years".data := rfl
  unfold unitOfToken unitTokOk unitTokens
  split_ifs with h1 h2 h3 h4 h5 h6 h7 <;>
    simp_all [List.any_cons, List.any_nil, beq_iff_eq]

/-- The parser returns a value exactly when the input matches the grammar. -/
theorem parse_isSome_eq_grammar (now : Int) (s : String) :
    (parseRelativeDate now s).isSome = matchesGrammarSpec s := by
  unfold parseRelativeDate matchesGrammarSpec
  cases h : splitWs (s.data.map Char.toLower) with
  | nil => rfl
  | cons t1 ts =>
    cases ts with
    | nil => rfl
    | cons t2 ts2 =>
      cases ts2 with
      | nil => rfl
      | cons t3 ts3 =>
        cases ts3 with
        | cons t4 ts4 => rfl
        | nil =>
          show (if t3 = "ago".data then
                  match parseAmount t1, unitOfToken t2 with
                  | some amount, some unit => some (applySub now amount unit)
                  | _, _ => none
                else none).isSome
              = (amountTokOk t1 && unitTokOk t2 && (t3 == "ago".data))
          by_cases h3 : t3 = "ago".data
          · rw [if_pos h3]
            cases hpa : parseAmount t1 <;> cases hut : unitOfToken t2 <;>
              rw [← parseAmount_isSome, ← unitOfToken_isSome, hpa, hut] <;>
              simp [h3]
          · rw [if_neg h3]
            simp [beq_iff_eq, h3]

/-- Claim C7: parseRelativeDate lower-cases and trims its input, accepts
exactly the grammar (integer | a | an) unit optional-s ago with the seven
units, maps the articles to magnitude one, subtracts calendar-aware (a week
is seven days, month and year shift calendar fields, witnessed by the two
concrete end-of-month instants), and returns null on every non-matching
input; the parse table holds. -/
theorem claim7_relative_time_parse_table (now : Int) :
    parseRelativeDate now "a week ago" = some (now - 7 * 86400) ∧
    parseRelativeDate now "2 days ago" = some (now - 2 * 86400) ∧
    parseRelativeDate now "an hour ago" = some (now - 3600) ∧
    parseRelativeDate now "5 minutes ago" = some (now - 5 * 60) ∧
    parseRelativeDate now "10 seconds ago" = some (now - 10) ∧
    parseRelativeDate now "gibberish" = none ∧
    parseRelativeDate now "" = none ∧
    parseRelativeDate now "  2 DAYS Ago  " = some (now - 2 * 86400) ∧
    (∀ s : String, (parseRelativeDate now s).isSome = matchesGrammarSpec s) ∧
    (parseRelativeDate ((daysFromCivil 2024 3 + 30) * 86400 + 43200) "a month ago").map
        (fun t => civilFromDays (t.fdiv 86400)) = some (2024, 3, 2) ∧
    (parseRelativeDate ((daysFromCivil 2024 2 + 28) * 86400 + 43200) "a year ago").map
        (fun t => civilFromDays (t.fdiv 86400)) = some (2023, 3, 1) := by
  refine ⟨?_, ?_, ?_, ?_, ?_, rfl, rfl, ?_, parse_isSome_eq_grammar now, by decide, by decide⟩
  · have h : parseRelativeDate now "a week ago" = some (applySub now 1 TimeUnit.week) := rfl
    rw [h, applySub_week]
    norm_num
  · have h : parseRelativeDate now "2 days ago" = some (applySub now 2 TimeUnit.day) := rfl
    rw [h, applySub_day]
    norm_num
  · have h : parseRelativeDate now "an hour ago" = some (applySub now 1 TimeUnit.hour) := rfl
    rw [h, applySub_hour]
    norm_num
  · have h : parseRelativeDate now "5 minutes ago" = some (applySub now 5 TimeUnit.minute) := rfl
    rw [h, applySub_minute]
    norm_num
  · have h : parseRelativeDate now "10 seconds ago" = some (applySub now 10 TimeUnit.second) := rfl
    rw [h, applySub_second]
    norm_num
  · have h : parseRelativeDate now "  2 DAYS Ago  " = some (applySub now 2 TimeUnit.day) := rfl
    rw [h, applySub_day]
    norm_num

/-- Claim C1: on its success path scrapeGoogleMapsReviews resolves to the
empty array for every input, because the final filter callback has a block
body with no return statement, so its undefined result discards every
harvested item; the harvest itself can be nonempty, as the second conjunct
shows on a one-review run. -/
theorem claim1_success_resolves_empty (now : Int) (stream : List (Except String Batch)) :
    scrapeGoogleMapsReviews now stream = [] ∧
    ScraperReviews none 0 [Except.ok demoBatch] = [demoLow] := by
  constructor
  · unfold scrapeGoogleMapsReviews
    simp [finalFilterCallback, jsTruthy]
  · decide

/-- Claim C10: scrapeNewGoogleMapsReviews resolves to undefined on every
invocation: neither path of the function body returns a value, so the
harvested reviews are computed and logged but a caller can never obtain
them; the second conjunct shows a run whose internal harvest is nonempty
while the resolution value is still undefined. -/
theorem claim10_resolves_undefined (now : Int) (date : String)
    (stream : List (Except String Batch)) :
    (scrapeNewGoogleMapsReviews now date stream).resolvedValue = none ∧
    (scrapeNewGoogleMapsReviews 0 "2 days ago" [Except.ok demoBatch]).harvestLogged = [demoLow] := by
  constructor
  · unfold scrapeNewGoogleMapsReviews
    split <;> rfl
  · decide

/-! ### Helper lemmas about the result map and the batch loop -/

/-- Map membership distributes over append. -/
theorem mapHas_append (m1 m2 : List (String × Review)) (k : String) :
    mapHas (m1 ++ m2) k = (mapHas m1 k || mapHas m2 k) := by
  simp [mapHas, List.any_append]

/-- Absence of a key is absence from the key column. -/
theorem mapHas_eq_false_iff (m : List (String × Review)) (k : String) :
    mapHas m k = false ↔ k ∉ m.map Prod.fst := by
  rw [← Bool.not_eq_true, mapHas, List.any_eq_true]
  simp only [beq_iff_eq, List.mem_map]

/-- Setting an absent key appends the binding. -/
theorem mapSet_of_not_has (m : List (String × Review)) (k : String) (v : Review)
    (h : mapHas m k = false) : mapSet m k v = m ++ [(k, v)] := by
  simp [mapSet, h]

/-- The Mode A batch loop over all-low-rating records folds the guarded
insertion over the batch, leaving every other state component unchanged. -/
theorem processBatchReviews_modeA_low (now : Int) (l : List Review) :
    ∀ st : HarvestState, (∀ r ∈ l, r.isHighRating = false) →
      processBatchReviews none now st l =
        { st with results := l.foldl insertIfAbsent st.results } := by
  induction l with
  | nil =>
    intro st _
    rfl
  | cons r rest ih =>
    intro st hlow
    have hr : r.isHighRating = false := hlow r (List.mem_cons_self r rest)
    have hrest : ∀ x ∈ rest, x.isHighRating = false :=
      fun x hx => hlow x (List.mem_cons_of_mem r hx)
    cases hhas : mapHas st.results r.id with
    | true =>
      simp only [processBatchReviews, hr, Bool.false_eq_true, if_false, hhas, if_true,
        List.foldl_cons]
      rw [ih st hrest]
      simp [insertIfAbsent, hhas]
    | false =>
      simp only [processBatchReviews, hr, Bool.false_eq_true, hhas, if_false,
        List.foldl_cons]
      rw [mapSet_of_not_has _ _ _ hhas, ih _ hrest]
      simp [insertIfAbsent, hhas]

/-- The Mode A batch loop on an all-low prefix followed by a high-rating
record stops the loop at that record: the insertions are exactly the
guarded insertions of the prefix, the trigger itself is not inserted, and
the rest of the batch is never processed. -/
theorem processBatchReviews_modeA_trigger (now : Int) (pre : List Review) :
    ∀ (st : HarvestState) (r : Review) (post : List Review),
      (∀ x ∈ pre, x.isHighRating = false) → r.isHighRating = true →
      processBatchReviews none now st (pre ++ r :: post) =
        { st with results := pre.foldl insertIfAbsent st.results,
                  isScrolling := false } := by
  induction pre with
  | nil =>
    intro st r post _ hr
    simp only [List.nil_append, processBatchReviews, hr, if_true, List.foldl_nil]
  | cons x pre ih =>
    intro st r post hlow hr
    have hx : x.isHighRating = false := hlow x (List.mem_cons_self x pre)
    have hpre : ∀ y ∈ pre, y.isHighRating = false :=
      fun y hy => hlow y (List.mem_cons_of_mem x hy)
    cases hhas : mapHas st.results x.id with
    | true =>
      simp only [List.cons_append, processBatchReviews, hx, Bool.false_eq_true, if_false,
        hhas, if_true, List.foldl_cons, List.append_eq]
      rw [ih st r post hpre hr]
      simp [insertIfAbsent, hhas]
    | false =>
      simp only [List.cons_append, processBatchReviews, hx, Bool.false_eq_true, hhas,
        if_false, List.foldl_cons, List.append_eq]
      rw [mapSet_of_not_has _ _ _ hhas, ih _ r post hpre hr]
      simp [insertIfAbsent, hhas]

/-- The batch loop only appends to the result map. -/
theorem processBatchReviews_results_extends (c : Option String) (now : Int)
    (l : List Review) :
    ∀ st : HarvestState, ∃ tail,
      (processBatchReviews c now st l).results = st.results ++ tail := by
  induction l with
  | nil =>
    intro st
    exact ⟨[], by simp [processBatchReviews]⟩
  | cons r rest ih =>
    intro st
    cases c with
    | some cutoff =>
      by_cases hc : cutoff = ""
      · simpa only [processBatchReviews, hc, if_true] using ih st
      · simp only [processBatchReviews, hc, if_false]
        by_cases hcmp : isDateBefore (parseRelativeDate now r.reviewPostedAt)
            (parseRelativeDate now cutoff) = some true
        · simp only [hcmp, if_true]
          by_cases hhigh : r.isHighRating = true
          · simpa only [hhigh, if_true] using ih st
          · simp only [hhigh, if_false]
            cases hhas : mapHas st.results r.id with
            | true => simpa only [if_true] using ih st
            | false =>
              simp only [Bool.false_eq_true, if_false,
                mapSet_of_not_has _ _ _ hhas]
              obtain ⟨t, ht⟩ := ih { st with results := st.results ++ [(r.id, r)] }
              exact ⟨(r.id, r) :: t, by simpa [List.append_assoc] using ht⟩
        · simp only [hcmp, if_false]
          obtain ⟨t, ht⟩ := ih { st with isScrolling := false }
          exact ⟨t, by simpa using ht⟩
    | none =>
      by_cases hhigh : r.isHighRating = true
      · exact ⟨[], by simp [processBatchReviews, hhigh]⟩
      · simp only [processBatchReviews, hhigh, if_false]
        cases hhas : mapHas st.results r.id with
        | true => simpa only [if_true] using ih st
        | false =>
          simp only [Bool.false_eq_true, if_false, mapSet_of_not_has _ _ _ hhas]
          obtain ⟨t, ht⟩ := ih { st with results := st.results ++ [(r.id, r)] }
          exact ⟨(r.id, r) :: t, by simpa [List.append_assoc] using ht⟩

/-- The batch loop preserves key uniqueness of the result map. -/
theorem processBatchReviews_nodup (c : Option String) (now : Int)
    (l : List Review) :
    ∀ st : HarvestState, (st.results.map Prod.fst).Nodup →
      (((processBatchReviews c now st l).results).map Prod.fst).Nodup := by
  induction l with
  | nil =>
    intro st h
    simpa [processBatchReviews] using h
  | cons r rest ih =>
    intro st h
    have hins : mapHas st.results r.id = false →
        ((({ st with results := st.results ++ [(r.id, r)] } : HarvestState)).results.map
          Prod.fst).Nodup := by
      intro hhas
      have hnotin : r.id ∉ st.results.map Prod.fst :=
        (mapHas_eq_false_iff _ _).mp hhas
      simp only [List.map_append, List.map_cons, List.map_nil]
      rw [List.nodup_append]
      exact ⟨h, List.nodup_singleton _, by simpa [List.disjoint_singleton] using hnotin⟩
    cases c with
    | some cutoff =>
      by_cases hc : cutoff = ""
      · simpa only [processBatchReviews, hc, if_true] using ih st h
      · simp only [processBatchReviews, hc, if_false]
        by_cases hcmp : isDateBefore (parseRelativeDate now r.reviewPostedAt)
            (parseRelativeDate now cutoff) = some true
        · simp only [hcmp, if_true]
          by_cases hhigh : r.isHighRating = true
          · simpa only [hhigh, if_true] using ih st h
          · simp only [hhigh, if_false]
            cases hhas : mapHas st.results r.id with
            | true => simpa only [if_true] using ih st h
            | false =>
              simp only [Bool.false_eq_true, if_false, mapSet_of_not_has _ _ _ hhas]
              exact ih _ (hins hhas)
        · simp only [hcmp, if_false]
          exact ih { st with isScrolling := false } (by simpa using h)
    | none =>
      by_cases hhigh : r.isHighRating = true
      · simpa [processBatchReviews, hhigh] using h
      · simp only [processBatchReviews, hhigh, if_false]
        cases hhas : mapHas st.results r.id with
        | true => simpa only [if_true] using ih st h
        | false =>
          simp only [Bool.false_eq_true, if_false, mapSet_of_not_has _ _ _ hhas]
          exact ih _ (hins hhas)

/-- The stall check after the batch loop never changes the result map. -/
theorem processIteration_results (c : Option String) (now : Int)
    (st : HarvestState) (b : Batch) :
    (processIteration c now st b).results =
      (processBatchReviews c now { st with processedElementsCount := b.totalElements }
        b.reviews).results := by
  simp only [processIteration]
  split_ifs <;> rfl

/-- The stall check never restarts a loop the batch loop has stopped. -/
theorem processIteration_scroll_false (c : Option String) (now : Int)
    (st : HarvestState) (b : Batch)
    (h : (processBatchReviews c now { st with processedElementsCount := b.totalElements }
        b.reviews).isScrolling = false) :
    (processIteration c now st b).isScrolling = false := by
  simp only [processIteration]
  split_ifs <;> first | rfl | exact h

/-- A successful Mode A iteration over an all-low batch with a nonempty
unprocessed suffix: the loop keeps scrolling, the batch insertions fold into
the results, and the stall counter resets. -/
theorem scraperStep_okA_low (now : Int) (st : HarvestState) (b : Batch)
    (hs : st.isScrolling = true)
    (hlow : ∀ r ∈ b.reviews, r.isHighRating = false)
    (hnep : b.newElementsProcessed ≠ 0) :
    scraperStep none now st (Except.ok b) =
      { st with results := b.reviews.foldl insertIfAbsent st.results,
                processedElementsCount := b.totalElements,
                noNewElementsCount := 0 } := by
  have hb : (b.newElementsProcessed == 0) = false := by
    simpa using hnep
  simp only [scraperStep, hs, if_true, processIteration,
    processBatchReviews_modeA_low now b.reviews _ hlow, hb, Bool.false_eq_true, if_false]

/-- Once the loop has stopped, the remaining stream is never consumed. -/
theorem foldl_scraperStep_stopped (c : Option String) (now : Int)
    (l : List (Except String Batch)) :
    ∀ st : HarvestState, st.isScrolling = false →
      l.foldl (scraperStep c now) st = st := by
  induction l with
  | nil =>
    intro st _
    rfl
  | cons x xs ih =>
    intro st h
    rw [List.foldl_cons]
    have hstep : scraperStep c now st x = st := by
      simp [scraperStep, h]
    rw [hstep]
    exact ih st h

/-- A single loop pass only appends to the result map. -/
theorem scraperStep_results_extends (c : Option String) (now : Int)
    (st : HarvestState) (x : Except String Batch) :
    ∃ tail, (scraperStep c now st x).results = st.results ++ tail := by
  unfold scraperStep
  split
  · cases x with
    | ok b =>
      rw [processIteration_results]
      exact processBatchReviews_results_extends c now b.reviews _
    | error e => exact ⟨[], by simp⟩
  · exact ⟨[], by simp⟩

/-- A single loop pass preserves key uniqueness of the result map. -/
theorem scraperStep_nodup (c : Option String) (now : Int)
    (st : HarvestState) (x : Except String Batch)
    (h : (st.results.map Prod.fst).Nodup) :
    (((scraperStep c now st x).results).map Prod.fst).Nodup := by
  unfold scraperStep
  split
  · cases x with
    | ok b =>
      rw [processIteration_results]
      exact processBatchReviews_nodup c now b.reviews _ (by simpa using h)
    | error e => simpa using h
  · simpa using h

/-- Driving the loop over any stream only appends to the result map. -/
theorem foldl_scraperStep_extends (c : Option String) (now : Int)
    (l : List (Except String Batch)) :
    ∀ st : HarvestState, ∃ tail,
      (l.foldl (scraperStep c now) st).results = st.results ++ tail := by
  induction l with
  | nil =>
    intro st
    exact ⟨[], by simp⟩
  | cons x xs ih =>
    intro st
    rw [List.foldl_cons]
    obtain ⟨t1, ht1⟩ := scraperStep_results_extends c now st x
    obtain ⟨t2, ht2⟩ := ih (scraperStep c now st x)
    exact ⟨t1 ++ t2, by rw [ht2, ht1, List.append_assoc]⟩

/-- Driving the loop over any stream preserves key uniqueness. -/
theorem foldl_scraperStep_nodup (c : Option String) (now : Int)
    (l : List (Except String Batch)) :
    ∀ st : HarvestState, (st.results.map Prod.fst).Nodup →
      (((l.foldl (scraperStep c now) st).results).map Prod.fst).Nodup := by
  induction l with
  | nil =>
    intro st h
    simpa using h
  | cons x xs ih =>
    intro st h
    rw [List.foldl_cons]
    exact ih _ (scraperStep_nodup c now st x h)

/-- Driving the Mode A loop over all-ok, all-low batches with nonempty
suffixes keeps it scrolling and accumulates exactly the guarded insertions
of the concatenated batches. -/
theorem foldl_okA_low (now : Int) (bs : List Batch) :
    ∀ st : HarvestState, st.isScrolling = true →
      (∀ b ∈ bs, (∀ r ∈ b.reviews, r.isHighRating = false) ∧
        b.newElementsProcessed ≠ 0) →
      ((bs.map Except.ok).foldl (scraperStep none now) st).isScrolling = true ∧
      ((bs.map Except.ok).foldl (scraperStep none now) st).results =
        ((bs.map Batch.reviews).flatten).foldl insertIfAbsent st.results := by
  induction bs with
  | nil =>
    intro st hs _
    exact ⟨hs, by simp⟩
  | cons b bs ih =>
    intro st hs hgood
    have hb := hgood b (List.mem_cons_self b bs)
    have hbs : ∀ x ∈ bs, (∀ r ∈ x.reviews, r.isHighRating = false) ∧
        x.newElementsProcessed ≠ 0 :=
      fun x hx => hgood x (List.mem_cons_of_mem b hx)
    rw [List.map_cons, List.foldl_cons, scraperStep_okA_low now st b hs hb.1 hb.2]
    obtain ⟨ha, hres⟩ :=
      ih { st with results := b.reviews.foldl insertIfAbsent st.results,
                   processedElementsCount := b.totalElements,
                   noNewElementsCount := 0 } hs hbs
    refine ⟨ha, ?_⟩
    rw [hres]
    simp [List.foldl_append]

/-- Folding the guarded insertion over records with pairwise distinct, fresh
identities appends one binding per record. -/
theorem foldl_insertIfAbsent_fresh (l : List Review) :
    ∀ m : List (String × Review),
      (∀ r ∈ l, mapHas m r.id = false) → (l.map Review.id).Nodup →
      l.foldl insertIfAbsent m = m ++ l.map (fun r => (r.id, r)) := by
  induction l with
  | nil =>
    intro m _ _
    simp
  | cons r rest ih =>
    intro m hfresh hnd
    have hm : mapHas m r.id = false := hfresh r (List.mem_cons_self _ _)
    have hnd2 : r.id ∉ rest.map Review.id ∧ (rest.map Review.id).Nodup := by
      rw [List.map_cons, List.nodup_cons] at hnd
      exact hnd
    rw [List.foldl_cons]
    have h1 : insertIfAbsent m r = m ++ [(r.id, r)] := by
      simp [insertIfAbsent, hm]
    rw [h1, ih]
    · simp
    · intro x hx
      have hxm : mapHas m x.id = false := hfresh x (List.mem_cons_of_mem _ hx)
      have hxr : r.id ≠ x.id := by
        intro heq
        exact hnd2.1 (heq ▸ List.mem_map_of_mem Review.id hx)
      have hone : mapHas [(r.id, r)] x.id = false := by
        simp [mapHas, beq_iff_eq]
        exact hxr
      rw [mapHas_append, hxm, hone]
      rfl
    · exact hnd2.2

/-- Claim C2 counterexample: with cutoff two days ago and a record whose
posted-time text does not parse, the comparison is null, yet the loop takes
the stopping branch: running becomes false after the batch, refuting that a
null comparison never alters the running flag. -/
theorem claim2_counterexample :
    isDateBefore (parseRelativeDate 0 "Unknown date") (parseRelativeDate 0 "2 days ago")
      = none ∧
    (runScraperReviews (some "2 days ago") 0 [Except.ok cexNullBatch]).isScrolling = false ∧
    (runScraperReviews (some "2 days ago") 0 [Except.ok cexNullBatch]).results = [] := by
  decide

/-- Claim C2 as amended: in Mode B a record whose date comparison is null
takes the same branch as an older-than-cutoff record: the loop sets running
to false, the record is skipped (never inserted), and processing continues
with the rest of the batch from the stopped state. -/
theorem claim2_amended_null_comparison_stops (cutoff : String) (now : Int)
    (st : HarvestState) (r : Review) (rest : List Review) (hc : cutoff ≠ "")
    (hcmp : isDateBefore (parseRelativeDate now r.reviewPostedAt)
      (parseRelativeDate now cutoff) = none) :
    processBatchReviews (some cutoff) now st (r :: rest) =
      processBatchReviews (some cutoff) now { st with isScrolling := false } rest := by
  simp only [processBatchReviews, hc, if_false, hcmp]
  simp

/-- Witness for the amended C2 at a concrete input. -/
theorem claim2_amended_witness :
    isDateBefore (parseRelativeDate 0 cexNullReview.reviewPostedAt)
      (parseRelativeDate 0 "2 days ago") = none ∧
    processBatchReviews (some "2 days ago") 0 initialHarvestState [cexNullReview] =
      processBatchReviews (some "2 days ago") 0
        { initialHarvestState with isScrolling := false } [] :=
  ⟨by decide,
   claim2_amended_null_comparison_stops "2 days ago" 0 initialHarvestState cexNullReview []
     (by decide) (by decide)⟩

/-- Claim C5 counterexample: with cutoff two days ago and record stream
older-then-newer, the older first record fires the stop, yet the second
record of the same batch is still accepted into the results — refuting that
no further records are accepted once the stop fires. -/
theorem claim5_counterexample :
    isDateBefore (parseRelativeDate 0 c5r3.reviewPostedAt) (parseRelativeDate 0 "2 days ago")
      = some false ∧
    (runScraperReviews (some "2 days ago") 0 [Except.ok c5BatchSwap]).isScrolling = false ∧
    (runScraperReviews (some "2 days ago") 0 [Except.ok c5BatchSwap]).results
      = [(c5r1.id, c5r1)] := by
  decide

/-- Claim C5 as amended: an older-than-cutoff record sets running to false
and is itself skipped, but the rest of the batch is still processed with the
unchanged per-record logic (so later at-or-after-cutoff records are still
accepted); on the spec's concrete stream of one-day, one-day, three-day and
five-day-old records with cutoff two days ago, the result is exactly the
first two records and running ends false. -/
theorem claim5_amended_older_stops (cutoff : String) (now : Int)
    (st : HarvestState) (r : Review) (rest : List Review) (hc : cutoff ≠ "")
    (hcmp : isDateBefore (parseRelativeDate now r.reviewPostedAt)
      (parseRelativeDate now cutoff) = some false) :
    processBatchReviews (some cutoff) now st (r :: rest) =
      processBatchReviews (some cutoff) now { st with isScrolling := false } rest ∧
    (runScraperReviews (some "2 days ago") 0 [Except.ok c5Batch4]).results =
      [(c5r1.id, c5r1), (c5r2.id, c5r2)] ∧
    (runScraperReviews (some "2 days ago") 0 [Except.ok c5Batch4]).isScrolling = false := by
  refine ⟨?_, by decide, by decide⟩
  simp only [processBatchReviews, hc, if_false, hcmp]
  simp

/-- Witness for the amended C5 at a concrete input. -/
theorem claim5_amended_witness :
    isDateBefore (parseRelativeDate 0 c5r3.reviewPostedAt) (parseRelativeDate 0 "2 days ago")
      = some false ∧
    (processBatchReviews (some "2 days ago") 0 initialHarvestState [c5r3] =
        processBatchReviews (some "2 days ago") 0
          { initialHarvestState with isScrolling := false } [] ∧
      (runScraperReviews (some "2 days ago") 0 [Except.ok c5Batch4]).results =
        [(c5r1.id, c5r1), (c5r2.id, c5r2)] ∧
      (runScraperReviews (some "2 days ago") 0 [Except.ok c5Batch4]).isScrolling = false) :=
  ⟨by decide,
   claim5_amended_older_stops "2 days ago" 0 initialHarvestState c5r3 []
     (by decide) (by decide)⟩

/-- Claim C6: in both modes and over every iteration stream, the accumulated
result map never holds two entries with equal identity, and the bindings
present after any stream prefix persist unchanged (in place and value) in
the final map — re-observing an inserted identity is a no-op, never an
overwrite. -/
theorem claim6_dedup_invariant (cutoff : Option String) (now : Int)
    (s1 s2 : List (Except String Batch)) :
    (((runScraperReviews cutoff now (s1 ++ s2)).results).map Prod.fst).Nodup ∧
    ∃ tail, (runScraperReviews cutoff now (s1 ++ s2)).results =
      (runScraperReviews cutoff now s1).results ++ tail := by
  constructor
  · exact foldl_scraperStep_nodup cutoff now (s1 ++ s2) initialHarvestState (by simp [initialHarvestState])
  · unfold runScraperReviews
    rw [List.foldl_append]
    exact foldl_scraperStep_extends cutoff now s2 _

/-- Claim C8: if the collaborator throws on iteration k greater than one
while the loop is still running, the loop stops immediately, the returned
sequence is exactly the unique items accumulated through iteration k minus
one, and the failure is surfaced as the logged diagnostic. -/
theorem claim8_partial_results (cutoff : Option String) (now : Int)
    (okBatches : List Batch) (e : String) (rest : List (Except String Batch))
    (hk : 0 < okBatches.length)
    (hrun : (runScraperReviews cutoff now (okBatches.map Except.ok)).isScrolling = true) :
    ScraperReviews cutoff now (okBatches.map Except.ok ++ Except.error e :: rest) =
      ScraperReviews cutoff now (okBatches.map Except.ok) ∧
    (runScraperReviews cutoff now
      (okBatches.map Except.ok ++ Except.error e :: rest)).isScrolling = false ∧
    (runScraperReviews cutoff now
      (okBatches.map Except.ok ++ Except.error e :: rest)).loggedError = some e := by
  have key : runScraperReviews cutoff now (okBatches.map Except.ok ++ Except.error e :: rest) =
      { runScraperReviews cutoff now (okBatches.map Except.ok) with
          isScrolling := false, loggedError := some e } := by
    unfold runScraperReviews at hrun ⊢
    rw [List.foldl_append, List.foldl_cons]
    have hstep : scraperStep cutoff now
        (List.foldl (scraperStep cutoff now) initialHarvestState (okBatches.map Except.ok))
        (Except.error e) =
        { List.foldl (scraperStep cutoff now) initialHarvestState (okBatches.map Except.ok) with
            isScrolling := false, loggedError := some e } := by
      simp [scraperStep, hrun]
    rw [hstep]
    exact foldl_scraperStep_stopped cutoff now rest _ rfl
  refine ⟨?_, ?_, ?_⟩ <;> simp [ScraperReviews, key]

/-- Witness for C8 at a concrete input. -/
theorem claim8_witness :
    0 < ([emptyOkBatch] : List Batch).length ∧
    (runScraperReviews none 0 ([emptyOkBatch].map Except.ok)).isScrolling = true ∧
    (ScraperReviews none 0 ([emptyOkBatch].map Except.ok ++ Except.error "boom" :: []) =
        ScraperReviews none 0 ([emptyOkBatch].map Except.ok) ∧
      (runScraperReviews none 0
        ([emptyOkBatch].map Except.ok ++ Except.error "boom" :: [])).isScrolling = false ∧
      (runScraperReviews none 0
        ([emptyOkBatch].map Except.ok ++ Except.error "boom" :: [])).loggedError = some "boom") :=
  ⟨by decide, by decide,
   claim8_partial_results none 0 [emptyOkBatch] "boom" [] (by decide) (by decide)⟩

/-- Claim C9 counterexample: the non-empty unparseable cutoff gibberish is
not rejected by the entry guard — the harvest loop is entered and
iterations run, refuting that every unparseable cutoff fails before any
iteration begins. -/
theorem claim9_counterexample :
    parseRelativeDate 0 "gibberish" = none ∧
    (scrapeNewGoogleMapsReviews 0 "gibberish" [Except.ok demoBatch]).enteredHarvestLoop
      = true := by
  decide

/-- Claim C9 as amended: only the empty cutoff fails the invocation before
the harvest loop (with the logged usage error); every non-empty cutoff,
parseable or not, enters the harvest loop. -/
theorem claim9_amended_only_empty_rejected (now : Int) (date : String)
    (stream : List (Except String Batch)) :
    (date = "" →
      (scrapeNewGoogleMapsReviews now date stream).enteredHarvestLoop = false ∧
      (scrapeNewGoogleMapsReviews now date stream).errorLogged =
        some "Date parameter is required") ∧
    (date ≠ "" →
      (scrapeNewGoogleMapsReviews now date stream).enteredHarvestLoop = true) := by
  constructor
  · intro h
    simp [scrapeNewGoogleMapsReviews, h]
  · intro h
    simp [scrapeNewGoogleMapsReviews, h]

/-- Witness for the amended C9 at both concrete inputs. -/
theorem claim9_amended_witness :
    ((scrapeNewGoogleMapsReviews 0 "" []).enteredHarvestLoop = false ∧
      (scrapeNewGoogleMapsReviews 0 "" []).errorLogged = some "Date parameter is required") ∧
    (scrapeNewGoogleMapsReviews 0 "gibberish" []).enteredHarvestLoop = true :=
  ⟨(claim9_amended_only_empty_rejected 0 "" []).1 rfl,
   (claim9_amended_only_empty_rejected 0 "gibberish" []).2 (by decide)⟩

/-- Claim C4: in Mode A, when the stream reaches a first high-rating record
(all records of the earlier ok-batches and of the same batch before it are
low-rating, and earlier batches had nonempty suffixes so the loop is still
running), the loop sets running to false at that record, skips the rest of
that batch and every later iteration, and the final result map holds exactly
the identity-deduplicated records extracted before the trigger; the trigger
itself is never inserted. -/
theorem claim4_modeA_saturation (now : Int) (batches : List Batch) (bj : Batch)
    (rest : List (Except String Batch)) (pre post : List Review) (r : Review)
    (hgood : ∀ b ∈ batches, (∀ x ∈ b.reviews, x.isHighRating = false) ∧
      b.newElementsProcessed ≠ 0)
    (hbj : bj.reviews = pre ++ r :: post)
    (hpre : ∀ x ∈ pre, x.isHighRating = false)
    (hr : r.isHighRating = true) :
    (runScraperReviews none now
      (batches.map Except.ok ++ Except.ok bj :: rest)).isScrolling = false ∧
    (runScraperReviews none now
      (batches.map Except.ok ++ Except.ok bj :: rest)).results =
      dedupById ((batches.map Batch.reviews).flatten ++ pre) := by
  obtain ⟨hsc, hres⟩ := foldl_okA_low now batches initialHarvestState rfl hgood
  have hstep2 : scraperStep none now
      ((batches.map Except.ok).foldl (scraperStep none now) initialHarvestState)
      (Except.ok bj) =
      processIteration none now
        ((batches.map Except.ok).foldl (scraperStep none now) initialHarvestState) bj := by
    simp [scraperStep, hsc]
  have hbatch := processBatchReviews_modeA_trigger now pre
    { (batches.map Except.ok).foldl (scraperStep none now) initialHarvestState with
        processedElementsCount := bj.totalElements } r post hpre hr
  have hres2 : (processIteration none now
      ((batches.map Except.ok).foldl (scraperStep none now) initialHarvestState) bj).results =
      pre.foldl insertIfAbsent
        ((batches.map Except.ok).foldl (scraperStep none now) initialHarvestState).results := by
    rw [processIteration_results, hbj, hbatch]
  have hscf : (processIteration none now
      ((batches.map Except.ok).foldl (scraperStep none now) initialHarvestState)
      bj).isScrolling = false := by
    apply processIteration_scroll_false
    rw [hbj, hbatch]
  have hrun : runScraperReviews none now (batches.map Except.ok ++ Except.ok bj :: rest) =
      processIteration none now
        ((batches.map Except.ok).foldl (scraperStep none now) initialHarvestState) bj := by
    unfold runScraperReviews
    rw [List.foldl_append, List.foldl_cons, hstep2]
    exact foldl_scraperStep_stopped none now rest _ hscf
  rw [hrun, hres2, hres]
  refine ⟨hscf, ?_⟩
  simp [dedupById, List.foldl_append, initialHarvestState]

/-- Witness for C4 at a concrete input. -/
theorem claim4_witness :
    (∀ b ∈ [w4b1], (∀ x ∈ b.reviews, x.isHighRating = false) ∧
      b.newElementsProcessed ≠ 0) ∧
    ((runScraperReviews none 0
        ([w4b1].map Except.ok ++ Except.ok w4bj :: [])).isScrolling = false ∧
      (runScraperReviews none 0
        ([w4b1].map Except.ok ++ Except.ok w4bj :: [])).results =
        dedupById (([w4b1].map Batch.reviews).flatten ++ [w4low2])) :=
  ⟨by decide,
   claim4_modeA_saturation 0 [w4b1] w4bj [] [w4low2] [w4low3] w4high (by decide)
     (by decide) (by decide) (by decide)⟩

/-- Projection of the iteration-result record: the results field. -/
theorem updateRRN_results (st : HarvestState) (x : List (String × Review)) (p n : Nat) :
    HarvestState.results
      { st with results := x, processedElementsCount := p, noNewElementsCount := n } = x := rfl

/-- Projection of the iteration-result record: the continuation flag. -/
theorem updateRRN_isScrolling (st : HarvestState) (x : List (String × Review)) (p n : Nat) :
    HarvestState.isScrolling
      { st with results := x, processedElementsCount := p, noNewElementsCount := n }
      = st.isScrolling := rfl

/-- Claim C3 counterexample: the loop both public entry points use
(ScraperReviews) has no safety cap: a Mode A run that inserts 1002 unique
low-rating items has more than 1000 results yet leaves the continuation
flag true — inserting the 1001st unique item does not end the harvest. -/
theorem claim3_counterexample :
    1000 < (runScraperReviews none 0 [Except.ok bigBatch]).results.length ∧
    (runScraperReviews none 0 [Except.ok bigBatch]).isScrolling = true := by
  have hrev : bigBatch.reviews = (List.range 1002).map lowReview := by
    simp only [bigBatch]
  have hlow : ∀ x ∈ bigBatch.reviews, x.isHighRating = false := by
    intro x hx
    rw [hrev] at hx
    obtain ⟨i, _, rfl⟩ := List.mem_map.mp hx
    rfl
  have hinj : Function.Injective (fun i : Nat => (lowReview i).id) := by
    intro i j hij
    have h3 : String.mk (List.replicate i 'a') = String.mk (List.replicate j 'a') := hij
    have h4 : List.replicate i 'a' = List.replicate j 'a' := congrArg String.data h3
    have h5 := congrArg List.length h4
    simpa using h5
  have hnodup : (bigBatch.reviews.map Review.id).Nodup := by
    rw [hrev, List.map_map]
    exact (List.nodup_range 1002).map hinj
  have hstep := scraperStep_okA_low 0 initialHarvestState bigBatch rfl hlow (by decide)
  have hrun : runScraperReviews none 0 [Except.ok bigBatch] =
      { initialHarvestState with
          results := bigBatch.reviews.foldl insertIfAbsent initialHarvestState.results,
          processedElementsCount := bigBatch.totalElements,
          noNewElementsCount := 0 } := by
    unfold runScraperReviews
    rw [List.foldl_cons, List.foldl_nil, hstep]
  have hfold : bigBatch.reviews.foldl insertIfAbsent initialHarvestState.results =
      initialHarvestState.results ++ bigBatch.reviews.map (fun x => (x.id, x)) :=
    foldl_insertIfAbsent_fresh bigBatch.reviews initialHarvestState.results
      (fun _ _ => rfl) hnodup
  have hres : (runScraperReviews none 0 [Except.ok bigBatch]).results =
      bigBatch.reviews.foldl insertIfAbsent initialHarvestState.results :=
    (congrArg HarvestState.results hrun).trans
      (updateRRN_results initialHarvestState _ _ _)
  have hscroll : (runScraperReviews none 0 [Except.ok bigBatch]).isScrolling = true :=
    (congrArg HarvestState.isScrolling hrun).trans
      ((updateRRN_isScrolling initialHarvestState _ _ _).trans rfl)
  refine ⟨?_, hscroll⟩
  rw [hres, hfold, List.length_append]
  have h6 : (bigBatch.reviews.map (fun x => (x.id, x))).length = 1002 := by
    rw [List.length_map, hrev, List.length_map, List.length_range]
  have h7 : initialHarvestState.results.length = 0 := rfl
  rw [h6, h7]
  norm_num

/-- Claim C3 as amended: the greater-than-1000 cap lives only in the
standalone ScrapeReviews loop of src/index.ts (which neither public entry
point calls); there, whenever an iteration ends with more than 1000 unique
results, the continuation flag is false. -/
theorem claim3_amended_cap_in_ScrapeReviews (st : HarvestState) (b : Batch)
    (h : 1000 < (processIterationScrapeReviews st b).results.length) :
    (processIterationScrapeReviews st b).isScrolling = false := by
  simp only [processIterationScrapeReviews] at h ⊢
  split_ifs at h ⊢ with h1 h2 h3 h4 <;> first | rfl | exact absurd h (by assumption)

/-- Witness for the amended C3 at a concrete input. -/
theorem claim3_amended_witness :
    1000 < (processIterationScrapeReviews capState emptyOkBatch).results.length ∧
    (processIterationScrapeReviews capState emptyOkBatch).isScrolling = false := by
  have hres : (processIterationScrapeReviews capState emptyOkBatch).results =
      capState.results := by
    simp only [processIterationScrapeReviews, processBatchScrapeReviews, emptyOkBatch]
    split_ifs <;> rfl
  have hlen : capState.results.length = 1001 := by
    show (List.replicate 1001 ("k", demoLow)).length = 1001
    rw [List.length_replicate]
  have h : 1000 < (processIterationScrapeReviews capState emptyOkBatch).results.length := by
    rw [hres, hlen]
    norm_num
  exact ⟨h, claim3_amended_cap_in_ScrapeReviews capState emptyOkBatch h⟩
